import Mathlib

/-!
Verification of the Shannon repository against its natural-language
specification.  Python source functions are shallowly embedded as Lean
definitions; machine behaviour (attribute access, slicing, regex search,
retry loops) is translated from the source files named in each section.
-/

namespace Shannon

/-! ## Result type (src/core/results.py) -/

/-- Two-variant result from `src/core/results.py`: `Ok(value)` / `Err(error)`. -/
inductive Result (T E : Type) where
  | ok (value : T)
  | err (error : E)
deriving DecidableEq, Repr

/-- Loop body of `collect_results` (src/core/results.py lines 96-113): walks the
list keeping an accumulator of unwrapped values, returning the first `Err`
unchanged, else `Ok` of the accumulated values. -/
def collectResultsAux {T E : Type} (acc : List T) :
    List (Result T E) → Result (List T) E
  | [] => .ok acc
  | .err e :: _ => .err e
  | .ok v :: rest => collectResultsAux (acc ++ [v]) rest

/-- `collect_results(results)` from src/core/results.py. -/
def collect_results {T E : Type} (results : List (Result T E)) : Result (List T) E :=
  collectResultsAux [] results

/-- Spec-side description: the error of the first `Err` element, if any. -/
def firstErrSpec {T E : Type} : List (Result T E) → Option E
  | [] => none
  | .err e :: _ => some e
  | .ok _ :: rest => firstErrSpec rest

/-- Spec-side description: the unwrapped values of the `Ok` elements, in order. -/
def okValuesSpec {T E : Type} (rs : List (Result T E)) : List T :=
  rs.filterMap fun r => match r with | .ok v => some v | .err _ => none

theorem collectResultsAux_spec {T E : Type} (rs : List (Result T E)) :
    ∀ acc : List T, collectResultsAux acc rs =
      match firstErrSpec rs with
      | some e => .err e
      | none => .ok (acc ++ okValuesSpec rs) := by
  induction rs with
  | nil => intro acc; simp [collectResultsAux, firstErrSpec, okValuesSpec]
  | cons r rest ih =>
      intro acc
      cases r with
      | err e => simp [collectResultsAux, firstErrSpec]
      | ok v =>
          simp only [collectResultsAux, firstErrSpec, ih (acc ++ [v])]
          cases h : firstErrSpec rest with
          | some e => rfl
          | none => simp [okValuesSpec]

/-! ## Event bus (src/core/events.py) -/

/-- An event as seen by the bus: its type name (the Python class name returned
by `BaseEvent.event_type`) plus an opaque payload tag. -/
structure PyEvent where
  eventType : String
  payload : Nat
deriving DecidableEq, Repr

/-- Handlers are identified by an id; their behaviour (normal return or raised
exception) is supplied separately as a function. -/
abbrev HandlerId := Nat

/-- The handlers registered for key `t`, in subscription order.  The bus stores
a `defaultdict(list)` appended to by `subscribe` (src/core/events.py lines
118-120); we represent the table as the chronological list of
(event_type, handler) subscription pairs. -/
def handlersFor (subs : List (String × HandlerId)) (t : String) : List HandlerId :=
  (subs.filter fun p => p.1 == t).map Prod.snd

/-- One `for handler in ...: try: handler(event) except: log` loop from
`EventBus.publish` (src/core/events.py lines 130-142).  Each handler is
invoked exactly once; a raised exception is caught (recorded in the trace)
and the loop continues with the next handler. -/
def runHandlers (behavior : HandlerId → PyEvent → Except String Unit)
    (event : PyEvent) : List HandlerId → List (HandlerId × Except String Unit)
  | [] => []
  | h :: rest => (h, behavior h event) :: runHandlers behavior event rest

/-- `EventBus.publish(event)` (src/core/events.py lines 127-142): run the
handlers registered under the event's own type, then the wildcard handlers.
The returned trace lists every handler invocation with its outcome. -/
def publishTrace (subs : List (String × HandlerId))
    (behavior : HandlerId → PyEvent → Except String Unit) (event : PyEvent) :
    List (HandlerId × Except String Unit) :=
  runHandlers behavior event (handlersFor subs event.eventType)
    ++ runHandlers behavior event (handlersFor subs "*")

theorem runHandlers_map_fst (behavior : HandlerId → PyEvent → Except String Unit)
    (event : PyEvent) (hs : List HandlerId) :
    (runHandlers behavior event hs).map Prod.fst = hs := by
  induction hs with
  | nil => rfl
  | cons h rest ih => simp [runHandlers, ih]

/-! ## Pagination (src/core/base.py, src/core/types.py) -/

/-- `PaginatedResult` container from src/core/types.py lines 29-45. -/
structure PaginatedResult (α : Type) where
  items : List α
  total : Nat
  page : Nat
  page_size : Nat
  total_pages : Nat
deriving DecidableEq, Repr

/-- `PaginatedResult.has_next` property: `page < total_pages`. -/
def PaginatedResult.has_next {α : Type} (r : PaginatedResult α) : Bool :=
  decide (r.page < r.total_pages)

/-- `PaginatedResult.has_previous` property: `page > 1`. -/
def PaginatedResult.has_previous {α : Type} (r : PaginatedResult α) : Bool :=
  decide (1 < r.page)

/-- `BaseRepository.get_paginated` (src/core/base.py lines 113-147), modelled
over the filtered/ordered row list: `offset = (page-1)*page_size`, the query
returns the rows `LIMIT page_size OFFSET offset`, `total` is the filtered
count, and `total_pages = (total + page_size - 1) // page_size`. -/
def get_paginated {α : Type} (rows : List α) (page page_size : Nat) :
    PaginatedResult α :=
  let offset := (page - 1) * page_size
  { items := (rows.drop offset).take page_size
    total := rows.length
    page := page
    page_size := page_size
    total_pages := (rows.length + page_size - 1) / page_size }

/-! ## LLM value types (src/core/types.py lines 254-310) -/

/-- Message roles (src/core/types.py lines 261-265). -/
inductive LLMRole where
  | system
  | user
  | assistant
deriving DecidableEq, Repr

/-- The `.value` string of a role. -/
def LLMRole.value : LLMRole → String
  | .system => "system"
  | .user => "user"
  | .assistant => "assistant"

/-- `LLMMessage` (src/core/types.py lines 268-276). -/
structure LLMMessage where
  role : LLMRole
  content : String
deriving DecidableEq, Repr

/-- `TokenUsage` (src/core/types.py lines 279-287): the dataclass declares
exactly the fields `prompt_tokens` and `completion_tokens`. -/
structure TokenUsage where
  prompt_tokens : Nat
  completion_tokens : Nat
deriving DecidableEq, Repr

/-- Python attribute access on a `TokenUsage` value: only the two declared
dataclass fields and the `total_tokens` property resolve; any other
attribute name raises `AttributeError`.  In particular `input_tokens` and
`output_tokens` (used by src/llm/cache/response_cache.py) do not resolve. -/
def TokenUsage.attr (u : TokenUsage) : String → Option Nat
  | "prompt_tokens" => some u.prompt_tokens
  | "completion_tokens" => some u.completion_tokens
  | "total_tokens" => some (u.prompt_tokens + u.completion_tokens)
  | _ => none

/-- Errors raised in the modelled client/cache paths.  `runtimeError` carries
the configured retry count and the last underlying attempt error, mirroring
`RuntimeError(f"Failed after {max_retries} retries: {last_error}")`. -/
inductive AttemptError where
  | httpStatus (code : Nat)
  | request (msg : String)
deriving DecidableEq, Repr

inductive PyError where
  | attributeError (objType attrName : String)
  | typeError (msg : String)
  | httpStatusError (code : Nat)
  | requestError (msg : String)
  | runtimeError (retries : Nat) (lastError : Option AttemptError)
deriving DecidableEq, Repr

/-- Python keyword-argument construction `TokenUsage(**kwargs)`: succeeds only
when the supplied keywords are exactly declared fields of the dataclass;
an unexpected keyword raises `TypeError`. -/
def TokenUsage.fromKwargs (kwargs : List (String × Nat)) :
    Except PyError TokenUsage :=
  if kwargs.all fun kv => kv.1 == "prompt_tokens" || kv.1 == "completion_tokens"
  then
    match kwargs.lookup "prompt_tokens", kwargs.lookup "completion_tokens" with
    | some p, some c => .ok ⟨p, c⟩
    | _, _ => .error (.typeError "missing required argument")
  else .error (.typeError "unexpected keyword argument")

/-- `LLMResponse` (src/core/types.py lines 290-297). -/
structure LLMResponse where
  content : String
  model : String
  usage : Option TokenUsage
  finish_reason : String
  cached : Bool
deriving DecidableEq, Repr

/-! ## Response cache (src/llm/cache/response_cache.py) -/

/-- One row of the `llm_cache` table (columns from `_init_db`, lines 24-44). -/
structure CacheRow where
  response_content : String
  modelName : String
  input_tokens : Option Nat
  output_tokens : Option Nat
  finishReasonCol : Option String
  created_at : ℚ
  expires_at : Option ℚ
deriving DecidableEq, Repr

/-- The cache database: rows keyed by `cache_key` (primary key). -/
abbrev CacheStore := List (String × CacheRow)

/-- `CachedResponse` (src/core/types.py lines 464-469). -/
structure CachedResponse where
  response : LLMResponse
  created_at : ℚ
  expires_at : Option ℚ
deriving DecidableEq, Repr

/-- `ResponseCache.get` (src/llm/cache/response_cache.py lines 46-78): select
the row with the key whose expiry is NULL or strictly in the future, then
rebuild a `TokenUsage` with keyword arguments `input_tokens` / `output_tokens`
(`row[..] or 0`) — keywords that `TokenUsage` does not declare, so a found row
raises `TypeError`; a miss returns `None`. -/
def cacheGet (store : CacheStore) (now : ℚ) (cache_key : String) :
    Except PyError (Option CachedResponse) :=
  match store.find? fun kv => kv.1 == cache_key with
  | none => .ok none
  | some (_, row) =>
      if row.expires_at.all (fun e => decide (now < e)) then
        match TokenUsage.fromKwargs
            [("input_tokens", row.input_tokens.getD 0),
             ("output_tokens", row.output_tokens.getD 0)] with
        | .error e => .error e
        | .ok u =>
            .ok (some
              { response :=
                  { content := row.response_content
                    model := row.modelName
                    usage := some u
                    finish_reason := row.finishReasonCol.getD "stop"
                    cached := true }
                created_at := row.created_at
                expires_at := row.expires_at })
      else .ok none

/-- INSERT OR REPLACE into the keyed store. -/
def storeInsert (store : CacheStore) (key : String) (row : CacheRow) : CacheStore :=
  if store.any fun kv => kv.1 == key then
    store.map fun kv => if kv.1 == key then (key, row) else kv
  else store ++ [(key, row)]

/-- `ResponseCache.set` (src/llm/cache/response_cache.py lines 80-109):
resolves the effective TTL (`ttl or default_ttl`, falsy 0 falls through) and
expiry, then builds the row parameters — reading `response.usage.input_tokens`
and `response.usage.output_tokens`, attributes that neither `None` nor
`TokenUsage` (fields `prompt_tokens`/`completion_tokens`) possesses, so the
parameter construction raises `AttributeError` before any row is written. -/
def cacheSet (store : CacheStore) (now : ℚ) (default_ttl : Option ℚ)
    (cache_key : String) (response : LLMResponse) (ttl : Option ℚ) :
    Except PyError CacheStore :=
  let ttlEff : Option ℚ :=
    match ttl with
    | some t => if t = 0 then default_ttl else some t
    | none => default_ttl
  let expiresAt : Option ℚ :=
    match ttlEff with
    | some t => if t = 0 then none else some (now + t)
    | none => none
  match response.usage with
  | none => .error (.attributeError "NoneType" "input_tokens")
  | some u =>
      match u.attr "input_tokens" with
      | none => .error (.attributeError "TokenUsage" "input_tokens")
      | some it =>
          match u.attr "output_tokens" with
          | none => .error (.attributeError "TokenUsage" "output_tokens")
          | some ot =>
              .ok (storeInsert store cache_key
                { response_content := response.content
                  modelName := response.model
                  input_tokens := some it
                  output_tokens := some ot
                  finishReasonCol := some response.finish_reason
                  created_at := now
                  expires_at := expiresAt })

/-! ## LLM client (src/llm/client.py) -/

/-- The configuration fields of `LLMConfig` (src/llm/config.py lines 70-81)
that `LLMClient.complete` reads. -/
structure LLMConfig where
  model : String
  temperature : ℚ
  max_tokens : Nat
  max_retries : Nat
  cache_enabled : Bool
deriving DecidableEq, Repr

/-- Defaults from src/llm/config.py: temperature 0.7, max_tokens 4096,
max_retries 3, cache_enabled true. -/
def defaultLLMConfig : LLMConfig :=
  { model := "gpt-oss-20b", temperature := mkRat 7 10, max_tokens := 4096
    max_retries := 3, cache_enabled := true }

/-- `LLMClient._compute_cache_key` (src/llm/client.py lines 81-89) builds
`"{model}:{temperature}:" + "|".join("{role}:{content}")` and hashes it with
SHA-256; the hash is modelled as the (injective-per-request) pre-image
string. -/
def computeCacheKey (model : String) (temperature : ℚ)
    (messages : List LLMMessage) : String :=
  model ++ ":" ++ toString temperature ++ ":"
    ++ String.intercalate "|" (messages.map fun m => m.role.value ++ ":" ++ m.content)

/-- A successful `/chat/completions` response body, already projected onto the
fields `complete` reads: `choices[0].message.content`, optional `model`,
optional `usage` block (prompt/completion counts), optional
`choices[0].finish_reason`. -/
structure ApiSuccess where
  content : String
  modelField : Option String
  usageBlock : Option (Nat × Nat)
  finishField : Option String
deriving DecidableEq, Repr

/-- Outcome of one `self._http.post(...)` attempt: a parsed success body, an
HTTP error status (raised by `raise_for_status`, so `code ≥ 400`), or a
network-level request error. -/
inductive HttpOutcome where
  | success (r : ApiSuccess)
  | statusError (code : Nat)
  | requestFail (msg : String)
deriving DecidableEq, Repr

/-- Whether an attempt outcome is retried by `complete` (src/llm/client.py
lines 168-178): any status ≥ 500, or any request error. -/
def retryableOutcome : HttpOutcome → Prop
  | .success _ => False
  | .statusError code => 500 ≤ code
  | .requestFail _ => True

/-- The `last_error` recorded for a failed attempt. -/
def attemptErr : HttpOutcome → Option AttemptError
  | .success _ => none
  | .statusError code => some (.httpStatus code)
  | .requestFail msg => some (.request msg)

/-- Parsing of a successful response into `LLMResponse`
(src/llm/client.py lines 148-160). -/
def parseSuccess (cfg : LLMConfig) (r : ApiSuccess) : LLMResponse :=
  { content := r.content
    model := r.modelField.getD cfg.model
    usage := r.usageBlock.map fun pc => ⟨pc.1, pc.2⟩
    finish_reason := r.finishField.getD "stop"
    cached := false }

/-- The retry loop of `complete` (src/llm/client.py lines 137-180):
`for attempt in range(max_retries)`, POSTing once per iteration; on success
the response is parsed and, when cache-eligible, written back via
`cache.set` (whose exception propagates); a status ≥ 500 or a request error
sleeps `2^attempt` seconds and retries; any other HTTP status re-raises
immediately; an exhausted loop raises the runtime failure with the configured
retry count and last error.  Returns (result, posts issued, sleeps performed,
final cache store). -/
def retryLoop (cfg : LLMConfig) (eligible : Bool) (key : String) (now : ℚ)
    (outcomes : Nat → HttpOutcome) (store : CacheStore) :
    List Nat → Option AttemptError →
    Except PyError LLMResponse × Nat × List Nat × CacheStore
  | [], lastError => (.error (.runtimeError cfg.max_retries lastError), 0, [], store)
  | attempt :: rest, _ =>
      match outcomes attempt with
      | .success r =>
          let resp := parseSuccess cfg r
          if eligible then
            match cacheSet store now none key resp none with
            | .error e => (.error e, 1, [], store)
            | .ok store' => (.ok resp, 1, [], store')
          else (.ok resp, 1, [], store)
      | .statusError code =>
          if 500 ≤ code then
            let t := retryLoop cfg eligible key now outcomes store rest
              (some (.httpStatus code))
            (t.1, t.2.1 + 1, 2 ^ attempt :: t.2.2.1, t.2.2.2)
          else (.error (.httpStatusError code), 1, [], store)
      | .requestFail msg =>
          let t := retryLoop cfg eligible key now outcomes store rest
            (some (.request msg))
          (t.1, t.2.1 + 1, 2 ^ attempt :: t.2.2.1, t.2.2.2)

/-- Observable effects of one `complete` call. -/
structure CompleteTrace where
  posts : Nat
  sleeps : List Nat
  cacheReads : Nat
  store : CacheStore
deriving DecidableEq, Repr

/-- `LLMClient.complete` (src/llm/client.py lines 91-180).  `cache` is the
configured response cache's store (`none` when the client has no cache);
`outcomes` gives the result of the n-th HTTP POST.  Returns the call result
together with the trace of POSTs, sleeps, cache reads and the final store. -/
def complete (cfg : LLMConfig) (cache : Option CacheStore) (now : ℚ)
    (messages : List LLMMessage) (temperature? : Option ℚ)
    (outcomes : Nat → HttpOutcome) : Except PyError LLMResponse × CompleteTrace :=
  let temperature := temperature?.getD cfg.temperature
  let key := computeCacheKey cfg.model temperature messages
  let runFrom : CacheStore → Bool → Nat →
      Except PyError LLMResponse × CompleteTrace := fun store eligible reads =>
    let t := retryLoop cfg eligible key now outcomes store
      (List.range cfg.max_retries) none
    (t.1, { posts := t.2.1, sleeps := t.2.2.1, cacheReads := reads, store := t.2.2.2 })
  match cache with
  | none => runFrom [] false 0
  | some store =>
      if temperature = 0 then
        match cacheGet store now key with
        | .error e =>
            (.error e, { posts := 0, sleeps := [], cacheReads := 1, store := store })
        | .ok (some hit) =>
            (.ok { content := hit.response.content
                   model := hit.response.model
                   usage := hit.response.usage
                   finish_reason := hit.response.finish_reason
                   cached := true },
             { posts := 0, sleeps := [], cacheReads := 1, store := store })
        | .ok none => runFrom store true 1
      else runFrom store false 0

/-! ## Prompt templates (src/llm/prompts/templates.py) -/

/-- `PromptTemplate` dataclass (src/llm/prompts/templates.py lines 7-13). -/
structure PromptTemplate where
  name : String
  template : String
  description : String
deriving DecidableEq, Repr

/-- Python `\w` word character (template variables are ASCII identifiers). -/
def isWordChar (c : Char) : Bool :=
  c.isAlphanum || c == '_'

/-- Left-to-right scan implementing `re.findall(r"\{(\w+)\}", template)`
(src/llm/prompts/templates.py lines 22-25).  A match is a `{`, a non-empty
maximal run of word characters, then `}`; the regex engine scans positions
left to right, resuming after each match.  The accumulator holds the word
run (reversed) of a candidate placeholder currently open at a `{`. -/
def scanPlaceholders : Option (List Char) → List Char → List String
  | _, [] => []
  | none, c :: rest =>
      if c = '{' then scanPlaceholders (some []) rest
      else scanPlaceholders none rest
  | some run, c :: rest =>
      if c = '}' then
        if run.isEmpty then scanPlaceholders none rest
        else String.mk run.reverse :: scanPlaceholders none rest
      else if c = '{' then scanPlaceholders (some []) rest
      else if isWordChar c then scanPlaceholders (some (c :: run)) rest
      else scanPlaceholders none rest

/-- `PromptTemplate.get_required_variables` (lines 22-25): the set of
placeholder names, modelled as the duplicate-free list of matches. -/
def get_required_variables (t : PromptTemplate) : List String :=
  (scanPlaceholders none t.template.toList).dedup

/-- `PromptTemplate.validate_variables` (lines 27-31): the required variable
names absent from the provided keyword set. -/
def validate_variables (t : PromptTemplate) (provided : List String) : List String :=
  (get_required_variables t).filter fun v => !(provided.contains v)

/-- `PromptTemplate.render` (lines 15-20): for each provided key/value in
order, replace every occurrence of `"{key}"` by the value. -/
def render (t : PromptTemplate) (kwargs : List (String × String)) : String :=
  kwargs.foldl (fun acc kv => acc.replace ("\x7b" ++ kv.1 ++ "\x7d") kv.2) t.template

/-! ## Base extractor (src/llm/extractors/base.py) -/

/-- Python dict assignment `d[key] = v`: overwrite in place if the key exists,
else append (insertion order preserved). -/
def pyDictSet (d : List (String × String)) (key v : String) :
    List (String × String) :=
  if d.any fun kv => kv.1 == key then
    d.map fun kv => if kv.1 == key then (kv.1, v) else kv
  else d ++ [(key, v)]

/-- Python dict merge `{**base, **upd}` as used for
`{"content": content, **context}` (src/llm/extractors/base.py line 102). -/
def pyDictMerge (base upd : List (String × String)) : List (String × String) :=
  upd.foldl (fun acc kv => pyDictSet acc kv.1 kv.2) base

/-- Errors recorded in an `ExtractionResult.errors` list. -/
inductive ExtractionError where
  | missingVariables (names : List String)
  | raisedException (e : PyError)
deriving DecidableEq, Repr

/-- `ExtractionResult` (src/core/types.py lines 300-309); the open-ended
`data` dict is modelled as a string-keyed association list. -/
structure ExtractionResult where
  extraction_type : String
  success : Bool
  data : List (String × String)
  confidence : ℚ
  raw_response : String
  usage : Option TokenUsage
  errors : List ExtractionError
deriving DecidableEq, Repr

/-- The per-extractor data supplied by a `BaseExtractor` subclass: extraction
type, system prompt, task template, response processor and expected keys. -/
structure ExtractorSpec where
  extraction_type : String
  system_prompt : PromptTemplate
  prompt_template : PromptTemplate
  processResponse : String → List (String × String)
  expected_keys : List String

/-- `BaseExtractor._calculate_confidence` (src/llm/extractors/base.py lines
152-162): 0.0 for empty or parse-flagged data, 0.8 when no expected keys are
declared, else the fraction of expected keys present with truthy values. -/
def calcConfidence (ex : ExtractorSpec) (data : List (String × String)) : ℚ :=
  if data.isEmpty || (data.lookup "parse_error").any (fun v => !v.isEmpty) then 0
  else if ex.expected_keys.isEmpty then mkRat 4 5
  else ((ex.expected_keys.filter fun k =>
          (data.lookup k).any fun v => !v.isEmpty).length : ℚ)
        / (ex.expected_keys.length : ℚ)

/-- `BaseExtractor.extract` (src/llm/extractors/base.py lines 93-145): merge
`content` and the context into the template variables, short-circuit with an
unsuccessful result on missing required variables, otherwise render the
prompt, build the two-message conversation and call `complete` at
temperature 0.1; exceptions from the completion are caught into an
unsuccessful result.  The second component is the trace of the `complete`
call (`none` when no completion was performed). -/
def extract (ex : ExtractorSpec) (cfg : LLMConfig) (cache : Option CacheStore)
    (now : ℚ) (content : String) (context : List (String × String))
    (outcomes : Nat → HttpOutcome) : ExtractionResult × Option CompleteTrace :=
  let template_vars := pyDictMerge [("content", content)] context
  let missing := validate_variables ex.prompt_template (template_vars.map Prod.fst)
  if missing.isEmpty then
    let user_content := render ex.prompt_template template_vars
    let messages : List LLMMessage :=
      [⟨.system, ex.system_prompt.template⟩, ⟨.user, user_content⟩]
    let res := complete cfg cache now messages (some (mkRat 1 10)) outcomes
    match res.1 with
    | .ok resp =>
        let data := ex.processResponse resp.content
        ({ extraction_type := ex.extraction_type, success := true, data := data
           confidence := calcConfidence ex data, raw_response := resp.content
           usage := resp.usage, errors := [] }, some res.2)
    | .error e =>
        ({ extraction_type := ex.extraction_type, success := false, data := []
           confidence := 0, raw_response := "", usage := none
           errors := [.raisedException e] }, some res.2)
  else
    ({ extraction_type := ex.extraction_type, success := false, data := []
       confidence := 0, raw_response := "", usage := none
       errors := [.missingVariables missing] }, none)

/-! ## Extraction service progress events (src/services/extraction_service.py) -/

/-- One `ExtractionProgressEvent` publication: stage name and fraction. -/
structure ProgressEvent where
  stage : String
  progress : ℚ
deriving DecidableEq, Repr

/-- The fraction published for chunk `i` of `n` in `_extract_chunked`
(line 218): `0.3 + 0.5 * (i / len(chunks))`. -/
def chunkFrac (n i : Nat) : ℚ :=
  mkRat 3 10 + mkRat 1 2 * mkRat i n

/-- The per-chunk progress events of `_extract_chunked` (lines 214-229), one
per chunk before its section extraction. -/
def chunkProgress (n : Nat) : List ProgressEvent :=
  (List.range n).map fun i => ⟨"extracting", chunkFrac n i⟩

/-- The `ExtractionProgress` events published by one `extract_paper` call
(src/services/extraction_service.py lines 93-173), as a function of the
branch outcomes: backend health, PDF existence, whether the parsed text fits
the token budget (full path) or is split into `n` chunks (chunked path), and
whether the chosen path's result is successful. -/
def extractPaperProgress (healthOk pdfExists fits : Bool) (n : Nat)
    (resultSuccess : Bool) : List ProgressEvent :=
  if !healthOk then []
  else if !pdfExists then [⟨"parsing", mkRat 1 10⟩]
  else
    [⟨"parsing", mkRat 1 10⟩, ⟨"analyzing", mkRat 2 10⟩]
      ++ (if fits then [⟨"extracting", mkRat 4 10⟩]
          else ⟨"chunking", mkRat 3 10⟩ :: chunkProgress n)
      ++ (if resultSuccess
          then [⟨"finalizing", mkRat 9 10⟩, ⟨"complete", 1⟩]
          else [])

/-! ## Text chunker (src/llm/processors/chunker.py)

Python strings are modelled as `List Char` and Python `int` positions as
`Int` (the loop variable `current_pos` can go negative). -/

/-- Normalize a Python index for slicing/rfind: a negative index counts from
the end, then the result is clamped to `[0, len]`. -/
def pyIndex (len : Nat) (i : Int) : Nat :=
  if i < 0 then (max ((len : Int) + i) 0).toNat else min i.toNat len

/-- Python slice `s[a:b]`. -/
def pySlice (s : List Char) (a b : Int) : List Char :=
  (s.take (pyIndex s.length b)).drop (pyIndex s.length a)

/-- Does `sub` occur in `s` starting at character index `k`? -/
def occursAt (s sub : List Char) (k : Nat) : Bool :=
  sub.isPrefixOf (s.drop k)

/-- Python `str.rfind(sub, start, end)`: the highest index of an occurrence of
`sub` within `s[start:end]` (indices normalized Python-style), or `-1`. -/
def pyRfind (s sub : List Char) (start stop : Int) : Int :=
  let lo := pyIndex s.length start
  let hi := pyIndex s.length stop
  match ((List.range (hi + 1)).filter fun k =>
      decide (lo ≤ k) && decide (k + sub.length ≤ hi) && occursAt s sub k).getLast? with
  | some k => (k : Int)
  | none => -1

/-- The binary-search loop of `TextChunker._find_chunk_end` (lines 103-111),
fuelled: every iteration strictly shrinks `high - low` (by at least one),
so `(high - low).toNat` iterations dominate the loop, which exits as soon as
`high - low ≤ 100`; Python `//` on ints is floor division, i.e. `Int.ediv`
for the positive divisor 2. -/
def bsearchLoop (tok : List Char → Nat) (text : List Char)
    (start : Int) (maxTokens : Nat) : Nat → Int → Int → Int
  | 0, low, _ => low
  | fuel + 1, low, high =>
      if 100 < high - low then
        let mid := Int.ediv (low + high) 2
        if tok (pySlice text start mid) ≤ maxTokens then
          bsearchLoop tok text start maxTokens fuel mid high
        else
          bsearchLoop tok text start maxTokens fuel low mid
      else low

/-- The separator-snapping loop of `_find_chunk_end` (lines 113-120): for each
separator in order, `rfind` it in `[start, candidate + 2*len(sep))` and, if
found at a position `> start` (note Python's `-1` not-found sentinel also
passes this test whenever `start < -1`), snap to just past it and stop. -/
def sepSnap (text : List Char) (start candidate : Int) :
    List (List Char) → Int
  | [] => candidate
  | sep :: rest =>
      let sepPos := pyRfind text sep start (candidate + 2 * (sep.length : Int))
      if start < sepPos then sepPos + (sep.length : Int)
      else sepSnap text start candidate rest

/-- `TextChunker._find_chunk_end` (lines 95-122). -/
def findChunkEnd (tok : List Char → Nat) (seps : List (List Char))
    (text : List Char) (start : Int) (maxTokens : Nat) : Int :=
  let low := bsearchLoop tok text start maxTokens
    ((text.length : Int) - start).toNat start (text.length : Int)
  min (sepSnap text start low seps) (text.length : Int)

/-- `TextChunker._tokens_to_chars` (lines 124-134): empty or zero-token
reference text estimates 4 characters per token; otherwise
`int(tokens * len(ref) / tok(ref))` (exact arithmetic; the Python float
product is exact in the cases below). -/
def tokensToChars (tok : List Char → Nat) (tokens : Nat) (ref : List Char) : Nat :=
  if ref.isEmpty then tokens * 4
  else if tok ref = 0 then tokens * 4
  else tokens * ref.length / tok ref

/-- `ChunkInfo` (src/core/types.py lines 367-375). -/
structure ChunkInfo where
  index : Nat
  total_chunks : Nat
  start_char : Int
  end_char : Int
  token_count : Nat
  text : List Char
deriving DecidableEq, Repr

/-- One iteration of the chunking while-loop (lines 58-79): find the chunk
end, slice the chunk, and step `current_pos` to
`chunk_end - tokens_to_chars(overlap, chunk_text)`. -/
def chunkStep (tok : List Char → Nat) (seps : List (List Char))
    (text : List Char) (maxTokens overlap : Nat) (pos : Int) (idx : Nat) :
    ChunkInfo × Int :=
  let chunkEnd := findChunkEnd tok seps text pos maxTokens
  let chunkText := pySlice text pos chunkEnd
  let overlapChars := tokensToChars tok overlap chunkText
  ({ index := idx, total_chunks := 0, start_char := pos, end_char := chunkEnd,
     token_count := tok chunkText, text := chunkText },
   chunkEnd - (overlapChars : Int))

/-- The `while current_pos < len(text)` loop of `TextChunker.chunk`
(lines 58-79), fuelled: the Python loop has no a-priori bound, so the model
returns `none` when `fuel` iterations do not exhaust it. -/
def chunkLoop (tok : List Char → Nat) (seps : List (List Char))
    (text : List Char) (maxTokens overlap : Nat) :
    Nat → Int → Nat → List ChunkInfo → Option (List ChunkInfo)
  | 0, pos, _, acc => if pos < (text.length : Int) then none else some acc
  | fuel + 1, pos, idx, acc =>
      if pos < (text.length : Int) then
        let s := chunkStep tok seps text maxTokens overlap pos idx
        chunkLoop tok seps text maxTokens overlap fuel s.2 (idx + 1) (acc ++ [s.1])
      else some acc

/-- `TextChunker.chunk` (lines 30-93) with effective `max_tokens`/`overlap`
already resolved: a text within budget is a single chunk, otherwise the
forward loop runs (fuelled) and `total_chunks` is backfilled. -/
def chunk (tok : List Char → Nat) (seps : List (List Char)) (text : List Char)
    (maxTokens overlap : Nat) (fuel : Nat) : Option (List ChunkInfo) :=
  let totalTokens := tok text
  if totalTokens ≤ maxTokens then
    some [{ index := 0, total_chunks := 1, start_char := 0,
            end_char := (text.length : Int), token_count := totalTokens,
            text := text }]
  else
    match chunkLoop tok seps text maxTokens overlap fuel 0 0 [] with
    | none => none
    | some chunks =>
        some (chunks.map fun c => { c with total_chunks := chunks.length })

/-- The default separators of `ChunkingConfig` (lines 13-16): `"\n\n"` then
`"\n"`, `". "`, `" "`. -/
def defaultSeparators : List (List Char) :=
  [['\n', '\n'], ['\n'], ['.', ' '], [' ']]

/-- `LLMClient.count_tokens` (src/llm/client.py lines 72-79): `len(text) // 4`. -/
def countTokens4 (s : List Char) : Nat := s.length / 4

/-! ## Legacy paper scraper (src/Meta/python_modules/util.py)

`get_paper_urls` scans each `Paper.md` with
`re.search(r"^\s*link\s*:\s*(https?://[^\s]+)\s*$", content, MULTILINE | IGNORECASE)`.
The regex is embedded by a deterministic case analysis of its backtracking
behaviour: greedy `\s*` before a non-space literal never needs backtracking,
`https?` tries the `s` first, `[^\s]+` is the maximal non-space run (a
shorter run would leave a non-space character where `\s*$` must match), and
`\s*$` succeeds exactly when the whitespace run after the URL reaches the end
of the string or contains a newline (`$` matches before `\n` or at the end
under MULTILINE). -/

/-- Python `\s` whitespace. -/
def isPySpace (c : Char) : Bool :=
  c == ' ' || c == '\t' || c == '\n' || c == '\r' || c == '\x0B' || c == '\x0C'

/-- Case-insensitive character comparison (re.IGNORECASE on ASCII). -/
def lcEq (a b : Char) : Bool := a.toLower == b.toLower

/-- Consume the literal `lit` (case-insensitively) from the head of `s`. -/
def stripLit : List Char → List Char → Option (List Char)
  | [], s => some s
  | _ :: _, [] => none
  | c :: lr, d :: sr => if lcEq c d then stripLit lr sr else none

/-- Strip `http` then `s?://` from the captured run, regex-backtracking style:
try the `s` branch first, fall back to the bare `://`. -/
def stripScheme (run : List Char) : Option (List Char) :=
  match stripLit ['h', 't', 't', 'p'] run with
  | none => none
  | some r1 =>
      match r1 with
      | c :: r2 =>
          if lcEq 's' c then
            match stripLit [':', '/', '/'] r2 with
            | some t => some t
            | none => stripLit [':', '/', '/'] r1
          else stripLit [':', '/', '/'] r1
      | [] => none

/-- Attempt the pattern at one `^` anchor: `\s* link \s* : \s*`
`(https?://[^\s]+) \s*$`.  Returns the captured URL. -/
def matchLinkAt (s : List Char) : Option (List Char) :=
  let s1 := s.dropWhile isPySpace
  match stripLit ['l', 'i', 'n', 'k'] s1 with
  | none => none
  | some s2 =>
      match s2.dropWhile isPySpace with
      | ':' :: s4 =>
          let s5 := s4.dropWhile isPySpace
          let run := s5.takeWhile fun c => !isPySpace c
          let rest := s5.dropWhile fun c => !isPySpace c
          match stripScheme run with
          | none => none
          | some tail =>
              if tail.isEmpty then none
              else
                if (rest.dropWhile isPySpace).isEmpty
                    || (rest.takeWhile isPySpace).contains '\n' then
                  some run
                else none
      | _ => none

/-- The `^` anchor positions of MULTILINE: 0 and every index just after a
newline. -/
def lineStartsAux : Nat → List Char → List Nat
  | _, [] => []
  | i, c :: rest =>
      if c = '\n' then (i + 1) :: lineStartsAux (i + 1) rest
      else lineStartsAux (i + 1) rest

/-- `re.search` of the link pattern: the leftmost anchored match's capture. -/
def searchLink (content : List Char) : Option (List Char) :=
  (0 :: lineStartsAux 0 content).findSome? fun p => matchLinkAt (content.drop p)

/-- Spec reading of the scan (claim C10): split the file into lines and take
the first single line wholly matching `link: <http(s) URL>` (case-insensitive,
surrounding whitespace ignored). -/
def firstLineLinkSpec (content : List Char) : Option (List Char) :=
  (content.splitOn '\n').findSome? fun line => matchLinkAt line

/-- The sentinel URL string. -/
def sentinel : List Char := "NO LINK FOUND".toList

/-- One `os.walk` entry as consumed by `get_paper_urls`: the directory's base
name, its file names, and the content of its `Paper.md` (read only when
present). -/
structure WalkEntry where
  basename : String
  filenames : List String
  content : List Char
deriving DecidableEq, Repr

/-- One record of the returned papers list. -/
structure PaperRecord where
  folder : String
  url : List Char
  downloaded : String
deriving DecidableEq, Repr

/-- `get_paper_urls` (src/Meta/python_modules/util.py lines 9-58), from the
`os.walk` loop on: every entry whose `filenames` contain `Paper.md` appends
one record — folder base name, the first regex match's URL or the sentinel,
and the Yes/No downloaded flag from the download folder's file list. -/
def get_paper_urls (walk : List WalkEntry) (downloadedFiles : List String) :
    List PaperRecord :=
  walk.foldl
    (fun acc e =>
      if e.filenames.contains "Paper.md" then
        acc ++ [{ folder := e.basename
                  url := (searchLink e.content).getD sentinel
                  downloaded :=
                    if downloadedFiles.contains (e.basename ++ ".pdf")
                    then "Yes" else "No" }]
      else acc)
    []

end Shannon

namespace Shannon

/-! ## Claim theorems (first group) -/

/-- C9: for every list of Results, `collect_results` returns an `Err` holding
the error value of the first `Err` element if any element is an `Err`, and
otherwise returns `Ok` of the list of each element's unwrapped value in the
same order as the input list. -/
theorem collect_results_first_err_or_ok {T E : Type} (rs : List (Result T E)) :
    collect_results rs =
      match firstErrSpec rs with
      | some e => .err e
      | none => .ok (okValuesSpec rs) := by
  have h := collectResultsAux_spec rs ([] : List T)
  simpa [collect_results] using h

/-- C4: `EventBus.publish(event)` invokes each handler registered under the
event's own type exactly once in subscription order, then each wildcard
handler exactly once in subscription order; a handler exception is caught and
neither propagates (the trace is always fully produced) nor prevents any
subsequent handler from running: the invocation sequence does not depend on
the handlers' outcomes. -/
theorem publish_invokes_in_order (subs : List (String × HandlerId))
    (behavior : HandlerId → PyEvent → Except String Unit) (event : PyEvent) :
    (publishTrace subs behavior event).map Prod.fst
        = handlersFor subs event.eventType ++ handlersFor subs "*" ∧
    (∀ h : HandlerId,
      ((publishTrace subs behavior event).map Prod.fst).count h
        = (handlersFor subs event.eventType).count h
          + (handlersFor subs "*").count h) ∧
    (∀ behavior' : HandlerId → PyEvent → Except String Unit,
      (publishTrace subs behavior' event).map Prod.fst
        = (publishTrace subs behavior event).map Prod.fst) := by
  refine ⟨?_, ?_, ?_⟩
  · simp [publishTrace, runHandlers_map_fst]
  · intro h
    simp [publishTrace, runHandlers_map_fst, List.count_append]
  · intro behavior'
    simp [publishTrace, runHandlers_map_fst]

/-- C8: for every row list, `page ≥ 1` and `page_size ≥ 1`, `get_paginated`
takes the rows at offset `(page-1)*page_size`, and the returned
`PaginatedResult` has `total_pages = ceil(total / page_size)` (characterised
as the least `m` with `total ≤ m * page_size`), `has_next` exactly when
`page < total_pages`, and `has_previous` exactly when `page > 1`. -/
theorem get_paginated_spec {α : Type} (rows : List α) (page page_size : Nat)
    (hp : 1 ≤ page) (hs : 1 ≤ page_size) :
    (get_paginated rows page page_size).items
        = (rows.drop ((page - 1) * page_size)).take page_size ∧
    (get_paginated rows page page_size).total
        ≤ (get_paginated rows page page_size).total_pages * page_size ∧
    (∀ m : Nat, (get_paginated rows page page_size).total ≤ m * page_size →
        (get_paginated rows page page_size).total_pages ≤ m) ∧
    ((get_paginated rows page page_size).has_next = true
        ↔ page < (get_paginated rows page page_size).total_pages) ∧
    ((get_paginated rows page page_size).has_previous = true ↔ 1 < page) := by
  have hs' : 0 < page_size := hs
  refine ⟨rfl, ?_, ?_, ?_, ?_⟩
  · have h := (Nat.div_le_iff_le_mul_add_pred hs'
      (a := rows.length + page_size - 1)
      (c := (rows.length + page_size - 1) / page_size)).mp le_rfl
    have hc : (rows.length + page_size - 1) / page_size * page_size
        = page_size * ((rows.length + page_size - 1) / page_size) :=
      Nat.mul_comm _ _
    simp only [get_paginated]
    omega
  · intro m hm
    have hm' : rows.length ≤ page_size * m := by
      simpa [Nat.mul_comm] using hm
    simp only [get_paginated]
    exact (Nat.div_le_iff_le_mul_add_pred hs').mpr (by omega)
  · simp [get_paginated, PaginatedResult.has_next]
  · simp [get_paginated, PaginatedResult.has_previous]

/-- Witness for C8 at rows of length 45 with page 3, page_size 20: the
hypotheses hold and total_pages is 3 with no next page. -/
theorem get_paginated_spec_witness :
    1 ≤ 3 ∧ 1 ≤ 20 ∧
      ((get_paginated (List.range 45) 3 20).has_next = true ↔
        3 < (get_paginated (List.range 45) 3 20).total_pages) := by
  refine ⟨by decide, by decide, ?_⟩
  exact (get_paginated_spec (List.range 45) 3 20 (by decide) (by decide)).2.2.2.1

/-! ## Retry-loop lemmas for the LLM client -/

/-- The `last_error` value held after processing attempts `a, .., a+j-1`. -/
def lastAfter (outcomes : Nat → HttpOutcome) (last : Option AttemptError)
    (a j : Nat) : Option AttemptError :=
  if j = 0 then last else attemptErr (outcomes (a + j - 1))

theorem lastAfter_succ (outcomes : Nat → HttpOutcome) (last : Option AttemptError)
    (a j : Nat) :
    lastAfter outcomes last a (j + 1)
      = lastAfter outcomes (attemptErr (outcomes a)) (a + 1) j := by
  cases j with
  | zero => simp [lastAfter]
  | succ j' =>
      have h : a + (j' + 1 + 1) - 1 = a + 1 + (j' + 1) - 1 := by omega
      simp [lastAfter, h]

theorem retryLoop_retryable_step (cfg : LLMConfig) (eligible : Bool) (key : String)
    (now : ℚ) (outcomes : Nat → HttpOutcome) (store : CacheStore) (a : Nat)
    (rest : List Nat) (last : Option AttemptError)
    (h : retryableOutcome (outcomes a)) :
    retryLoop cfg eligible key now outcomes store (a :: rest) last
      = ((retryLoop cfg eligible key now outcomes store rest
            (attemptErr (outcomes a))).1,
         (retryLoop cfg eligible key now outcomes store rest
            (attemptErr (outcomes a))).2.1 + 1,
         2 ^ a :: (retryLoop cfg eligible key now outcomes store rest
            (attemptErr (outcomes a))).2.2.1,
         (retryLoop cfg eligible key now outcomes store rest
            (attemptErr (outcomes a))).2.2.2) := by
  cases ho : outcomes a with
  | success r =>
      rw [ho] at h
      exact absurd h (by simp [retryableOutcome])
  | statusError code =>
      rw [ho] at h
      have h' : 500 ≤ code := h
      simp [retryLoop, ho, attemptErr, h']
  | requestFail msg =>
      simp [retryLoop, ho, attemptErr]

theorem retryLoop_prefix (cfg : LLMConfig) (eligible : Bool) (key : String)
    (now : ℚ) (outcomes : Nat → HttpOutcome) (store : CacheStore) :
    ∀ (j a : Nat) (rest : List Nat) (last : Option AttemptError),
      (∀ i, i < j → retryableOutcome (outcomes (a + i))) →
      retryLoop cfg eligible key now outcomes store (List.range' a j ++ rest) last
        = ((retryLoop cfg eligible key now outcomes store rest
              (lastAfter outcomes last a j)).1,
           (retryLoop cfg eligible key now outcomes store rest
              (lastAfter outcomes last a j)).2.1 + j,
           (List.range' a j).map (2 ^ ·)
             ++ (retryLoop cfg eligible key now outcomes store rest
                  (lastAfter outcomes last a j)).2.2.1,
           (retryLoop cfg eligible key now outcomes store rest
              (lastAfter outcomes last a j)).2.2.2) := by
  intro j
  induction j with
  | zero =>
      intro a rest last _
      simp [List.range', lastAfter]
  | succ j ih =>
      intro a rest last h
      have h0 : retryableOutcome (outcomes a) := by
        have := h 0 (Nat.succ_pos j)
        simpa using this
      have h' : ∀ i, i < j → retryableOutcome (outcomes (a + 1 + i)) := by
        intro i hi
        have hh := h (i + 1) (by omega)
        have e : a + (i + 1) = a + 1 + i := by omega
        rwa [e] at hh
      rw [List.range'_succ, List.cons_append,
        retryLoop_retryable_step cfg eligible key now outcomes store a _ _ h0,
        ih (a + 1) rest (attemptErr (outcomes a)) h', ← lastAfter_succ]
      dsimp only
      refine congrArg₂ _ rfl ?_
      refine congrArg₂ _ (by omega) ?_
      refine congrArg₂ _ ?_ rfl
      simp [List.range'_succ]

theorem retryLoop_posts_le (cfg : LLMConfig) (eligible : Bool) (key : String)
    (now : ℚ) (outcomes : Nat → HttpOutcome) (store : CacheStore) :
    ∀ (idxs : List Nat) (last : Option AttemptError),
      (retryLoop cfg eligible key now outcomes store idxs last).2.1 ≤ idxs.length := by
  intro idxs
  induction idxs with
  | nil => intro last; simp [retryLoop]
  | cons a rest ih =>
      intro last
      cases ho : outcomes a with
      | success r =>
          cases he : eligible
          · simp [retryLoop, ho, he]
          · cases hcs : cacheSet store now none key (parseSuccess cfg r) none with
            | error e => simp [retryLoop, ho, he, hcs]
            | ok s' => simp [retryLoop, ho, he, hcs]
      | statusError code =>
          by_cases h5 : 500 ≤ code
          · have := ih (some (.httpStatus code))
            simp only [retryLoop, ho, if_pos h5, List.length_cons]
            omega
          · simp [retryLoop, ho, h5]
      | requestFail msg =>
          have := ih (some (.request msg))
          simp only [retryLoop, ho, List.length_cons]
          omega

/-- `ResponseCache.set` always raises: the row parameters read
`usage.input_tokens`, which exists neither on `None` nor on `TokenUsage`. -/
theorem cacheSet_always_raises (store : CacheStore) (now : ℚ)
    (default_ttl : Option ℚ) (key : String) (response : LLMResponse)
    (ttl : Option ℚ) :
    cacheSet store now default_ttl key response ttl
      = .error (.attributeError
          (if response.usage.isSome then "TokenUsage" else "NoneType")
          "input_tokens") := by
  cases hu : response.usage with
  | none => simp [cacheSet, hu]
  | some u => simp [cacheSet, hu, TokenUsage.attr]

/-- When `complete` does not consult the cache (no cache configured, or the
effective temperature is non-zero), it is exactly the retry loop over the
attempt outcomes, with zero cache reads. -/
theorem complete_no_cache_path (cfg : LLMConfig) (cache : Option CacheStore)
    (now : ℚ) (messages : List LLMMessage) (temperature? : Option ℚ)
    (outcomes : Nat → HttpOutcome)
    (hnc : cache = none ∨ temperature?.getD cfg.temperature ≠ 0) :
    complete cfg cache now messages temperature? outcomes
      = ((retryLoop cfg false
            (computeCacheKey cfg.model (temperature?.getD cfg.temperature) messages)
            now outcomes (cache.getD []) (List.range cfg.max_retries) none).1,
         { posts := (retryLoop cfg false
              (computeCacheKey cfg.model (temperature?.getD cfg.temperature) messages)
              now outcomes (cache.getD []) (List.range cfg.max_retries) none).2.1
           sleeps := (retryLoop cfg false
              (computeCacheKey cfg.model (temperature?.getD cfg.temperature) messages)
              now outcomes (cache.getD []) (List.range cfg.max_retries) none).2.2.1
           cacheReads := 0
           store := (retryLoop cfg false
              (computeCacheKey cfg.model (temperature?.getD cfg.temperature) messages)
              now outcomes (cache.getD []) (List.range cfg.max_retries) none).2.2.2 }) := by
  cases cache with
  | none => rfl
  | some store =>
      have ht : temperature?.getD cfg.temperature ≠ 0 := by
        rcases hnc with h | h
        · exact absurd h (by simp)
        · exact h
      simp [complete, ht]

theorem retryLoop_stop_nonserver (cfg : LLMConfig) (eligible : Bool)
    (key : String) (now : ℚ) (outcomes : Nat → HttpOutcome) (store : CacheStore)
    (a : Nat) (rest : List Nat) (last : Option AttemptError) (code : Nat)
    (ho : outcomes a = .statusError code) (hlt : ¬ 500 ≤ code) :
    retryLoop cfg eligible key now outcomes store (a :: rest) last
      = (.error (.httpStatusError code), 1, [], store) := by
  simp [retryLoop, ho, hlt]

theorem retryLoop_stop_success (cfg : LLMConfig) (key : String) (now : ℚ)
    (outcomes : Nat → HttpOutcome) (store : CacheStore) (a : Nat)
    (rest : List Nat) (last : Option AttemptError) (r : ApiSuccess)
    (ho : outcomes a = .success r) :
    retryLoop cfg false key now outcomes store (a :: rest) last
      = (.ok (parseSuccess cfg r), 1, [], store) := by
  simp [retryLoop, ho]

/-- Splitting `range max_retries` at attempt `j`. -/
theorem range_split_at (R j : Nat) (hj : j < R) :
    List.range R = List.range' 0 j ++ (j :: List.range' (j + 1) (R - j - 1)) := by
  have h2 := List.range'_append_1 0 j (R - j)
  rw [Nat.zero_add] at h2
  have h4 : R - j = (R - j - 1) + 1 := by omega
  rw [h4, List.range'_succ] at h2
  have h5 : R - j - 1 + 1 + j = R := by omega
  rw [h5] at h2
  rw [List.range_eq_range']
  exact h2.symm

/-- C3: for every `complete()` call that reaches the request loop (no cache
configured, or effective temperature non-zero, which includes the default
0.7), at most `max_retries` POSTs are issued; a status ≥ 500 or network error
on each of the first `j` attempts is followed by backoff sleeps
`2^0, .., 2^(j-1)`; a non-server HTTP error status on attempt `j` raises
`HTTPStatusError` immediately with no further attempt; a success on attempt
`j` returns the parsed response; and if all `max_retries` attempts fail
retryably, a `RuntimeError` naming the configured retry count and the last
underlying error is raised. -/
theorem complete_retry_policy (cfg : LLMConfig) (cache : Option CacheStore)
    (now : ℚ) (messages : List LLMMessage) (temperature? : Option ℚ)
    (outcomes : Nat → HttpOutcome)
    (hnc : cache = none ∨ temperature?.getD cfg.temperature ≠ 0) :
    (complete cfg cache now messages temperature? outcomes).2.posts ≤ cfg.max_retries
    ∧ (∀ j code, j < cfg.max_retries →
        (∀ i, i < j → retryableOutcome (outcomes i)) →
        outcomes j = .statusError code → code < 500 →
          (complete cfg cache now messages temperature? outcomes).1
              = .error (.httpStatusError code)
          ∧ (complete cfg cache now messages temperature? outcomes).2.posts = j + 1
          ∧ (complete cfg cache now messages temperature? outcomes).2.sleeps
              = (List.range j).map (2 ^ ·))
    ∧ (∀ j r, j < cfg.max_retries →
        (∀ i, i < j → retryableOutcome (outcomes i)) →
        outcomes j = .success r →
          (complete cfg cache now messages temperature? outcomes).1
              = .ok (parseSuccess cfg r)
          ∧ (complete cfg cache now messages temperature? outcomes).2.posts = j + 1
          ∧ (complete cfg cache now messages temperature? outcomes).2.sleeps
              = (List.range j).map (2 ^ ·))
    ∧ ((∀ i, i < cfg.max_retries → retryableOutcome (outcomes i)) →
          (complete cfg cache now messages temperature? outcomes).1
              = .error (.runtimeError cfg.max_retries
                  (lastAfter outcomes none 0 cfg.max_retries))
          ∧ (complete cfg cache now messages temperature? outcomes).2.posts
              = cfg.max_retries
          ∧ (complete cfg cache now messages temperature? outcomes).2.sleeps
              = (List.range cfg.max_retries).map (2 ^ ·)) := by
  have hc :=
    complete_no_cache_path cfg cache now messages temperature? outcomes hnc
  set s0 : CacheStore := cache.getD [] with hs0
  rw [hc]
  dsimp only
  refine ⟨?_, ?_, ?_, ?_⟩
  · have h := retryLoop_posts_le cfg false
      (computeCacheKey cfg.model (temperature?.getD cfg.temperature) messages)
      now outcomes s0 (List.range cfg.max_retries) none
    simpa using h
  · intro j code hj hpre ho hcode
    have hzero : ∀ i, i < j → retryableOutcome (outcomes (0 + i)) := by
      intro i hi; simpa using hpre i hi
    rw [range_split_at cfg.max_retries j hj,
      retryLoop_prefix cfg false _ now outcomes s0 j 0 _ none hzero,
      retryLoop_stop_nonserver cfg false _ now outcomes s0 j _ _ code ho
        (by omega)]
    dsimp only
    refine ⟨rfl, by omega, ?_⟩
    rw [List.range_eq_range']
    simp
  · intro j r hj hpre ho
    have hzero : ∀ i, i < j → retryableOutcome (outcomes (0 + i)) := by
      intro i hi; simpa using hpre i hi
    rw [range_split_at cfg.max_retries j hj,
      retryLoop_prefix cfg false _ now outcomes s0 j 0 _ none hzero,
      retryLoop_stop_success cfg _ now outcomes s0 j _ _ r ho]
    dsimp only
    refine ⟨rfl, by omega, ?_⟩
    rw [List.range_eq_range']
    simp
  · intro hall
    have hzero : ∀ i, i < cfg.max_retries → retryableOutcome (outcomes (0 + i)) := by
      intro i hi; simpa using hall i hi
    have hsplit : List.range cfg.max_retries
        = List.range' 0 cfg.max_retries ++ ([] : List Nat) := by
      rw [List.range_eq_range', List.append_nil]
    rw [hsplit,
      retryLoop_prefix cfg false _ now outcomes s0 cfg.max_retries 0 [] none hzero]
    dsimp only [retryLoop]
    refine ⟨rfl, by omega, ?_⟩
    simp

/-- Attempt schedule used by the C3 witness: a 500 on the first attempt, then
a 404 on the second. -/
def demoRetryOutcomes : Nat → HttpOutcome := fun n =>
  if n = 0 then .statusError 500 else .statusError 404

/-- Witness for C3: with the default config (max_retries 3, temperature 0.7),
no cache, a 500 on attempt 0 and a 404 on attempt 1, `complete` sleeps
`2^0` once, POSTs twice, and raises `HTTPStatusError 404` immediately. -/
theorem complete_retry_policy_witness :
    (complete defaultLLMConfig none 0 [] none demoRetryOutcomes).1
        = .error (.httpStatusError 404)
    ∧ (complete defaultLLMConfig none 0 [] none demoRetryOutcomes).2.posts = 2
    ∧ (complete defaultLLMConfig none 0 [] none demoRetryOutcomes).2.sleeps = [1] := by
  have h := (complete_retry_policy defaultLLMConfig none 0 [] none demoRetryOutcomes
      (Or.inl rfl)).2.1 1 404 (by decide)
      (fun i hi => by
        have hi0 : i = 0 := by omega
        subst hi0
        simp [demoRetryOutcomes, retryableOutcome])
      (by simp [demoRetryOutcomes]) (by decide)
  refine ⟨h.1, h.2.1, ?_⟩
  rw [h.2.2]
  decide

/-! ## Progress-monotonicity lemmas (C6) -/

theorem chunkFrac_mono (n i j : Nat) (hij : i ≤ j) :
    chunkFrac n i ≤ chunkFrac n j := by
  unfold chunkFrac
  have h : mkRat i n ≤ mkRat j n := by
    rw [Rat.mkRat_eq_div, Rat.mkRat_eq_div]
    rcases Nat.eq_zero_or_pos n with h0 | hpos
    · subst h0; simp
    · have hc : (0:ℚ) < (n:ℚ) := by exact_mod_cast hpos
      have hij' : ((i : ℤ) : ℚ) ≤ ((j : ℤ) : ℚ) := by exact_mod_cast hij
      exact (div_le_div_iff_of_pos_right hc).mpr hij'
  have h2 : (0:ℚ) ≤ mkRat 1 2 := by decide
  nlinarith [h, h2]

theorem chunkFrac_le (n i : Nat) (hin : i < n) : chunkFrac n i ≤ mkRat 9 10 := by
  unfold chunkFrac
  have hpos : 0 < n := Nat.zero_lt_of_lt hin
  have hc : (0:ℚ) < (n:ℚ) := by exact_mod_cast hpos
  have h1 : mkRat i n ≤ 1 := by
    rw [Rat.mkRat_eq_div]
    rw [div_le_one hc]
    exact_mod_cast Nat.le_of_lt hin
  have h0 : (0:ℚ) ≤ mkRat i n := by
    rw [Rat.mkRat_eq_div]
    positivity
  have e3 : mkRat 3 10 = (3 : ℚ)/10 := by rw [Rat.mkRat_eq_div]; norm_num
  have e2 : mkRat 1 2 = (1 : ℚ)/2 := by rw [Rat.mkRat_eq_div]; norm_num
  have e9 : mkRat 9 10 = (9 : ℚ)/10 := by rw [Rat.mkRat_eq_div]; norm_num
  rw [e3, e2, e9]
  nlinarith [h1, h0]

theorem chunkFrac_zero (n : Nat) : chunkFrac n 0 = mkRat 3 10 := by
  unfold chunkFrac
  rw [Rat.mkRat_eq_div]
  norm_num

theorem chunkProgress_chain (n : Nat) :
    List.Chain' (fun a b : ProgressEvent => a.progress ≤ b.progress)
      (chunkProgress n) := by
  refine List.Pairwise.chain' ?_
  unfold chunkProgress
  refine List.Pairwise.map _ ?_ (List.pairwise_lt_range n)
  intro a b hab
  exact chunkFrac_mono n a b (Nat.le_of_lt hab)

theorem chunkProgress_mem_le (n : Nat) (e : ProgressEvent)
    (he : e ∈ chunkProgress n) : e.progress ≤ mkRat 9 10 := by
  unfold chunkProgress at he
  obtain ⟨i, hi, rfl⟩ := List.mem_map.mp he
  exact chunkFrac_le n i (List.mem_range.mp hi)

/-- C6: within a single `extract_paper()` call, on every control path (backend
down, missing PDF, full path at 0.4, or chunked path over any chunk count,
successful or not) the published `ExtractionProgress` fractions — 0.1
parsing, 0.2 analyzing, 0.4 extracting or 0.3 chunking then
`0.3 + 0.5*(i/n)` per chunk, 0.9 finalizing, 1.0 complete — form a
monotonically non-decreasing sequence. -/
theorem extract_paper_progress_monotone (healthOk pdfExists fits : Bool)
    (n : Nat) (resultSuccess : Bool) :
    List.Chain' (fun a b : ProgressEvent => a.progress ≤ b.progress)
      (extractPaperProgress healthOk pdfExists fits n resultSuccess) := by
  cases healthOk with
  | false => simp [extractPaperProgress]
  | true =>
  cases pdfExists with
  | false => simp [extractPaperProgress]
  | true =>
  cases fits with
  | true =>
      cases resultSuccess with
      | true =>
          have he : extractPaperProgress true true true n true
              = [(⟨"parsing", mkRat 1 10⟩ : ProgressEvent),
                 ⟨"analyzing", mkRat 2 10⟩, ⟨"extracting", mkRat 4 10⟩,
                 ⟨"finalizing", mkRat 9 10⟩, ⟨"complete", 1⟩] := by
            simp [extractPaperProgress]
          rw [he]
          simp only [List.chain'_cons, List.chain'_singleton, and_true]
          refine ⟨?_, ?_, ?_, ?_⟩ <;> decide
      | false =>
          have he : extractPaperProgress true true true n false
              = [(⟨"parsing", mkRat 1 10⟩ : ProgressEvent),
                 ⟨"analyzing", mkRat 2 10⟩, ⟨"extracting", mkRat 4 10⟩] := by
            simp [extractPaperProgress]
          rw [he]
          simp only [List.chain'_cons, List.chain'_singleton, and_true]
          refine ⟨?_, ?_⟩ <;> decide
  | false =>
      have hmid : List.Chain' (fun a b : ProgressEvent => a.progress ≤ b.progress)
          ((⟨"chunking", mkRat 3 10⟩ : ProgressEvent) :: chunkProgress n) := by
        rw [List.chain'_cons']
        refine ⟨?_, chunkProgress_chain n⟩
        intro y hy
        cases n with
        | zero => simp [chunkProgress] at hy
        | succ m =>
            have hh : (chunkProgress (m + 1)).head?
                = some ⟨"extracting", chunkFrac (m + 1) 0⟩ := by
              simp [chunkProgress, List.range_succ_eq_map]
            rw [hh] at hy
            simp only [Option.mem_some_iff] at hy
            subst hy
            show mkRat 3 10 ≤ chunkFrac (m + 1) 0
            rw [chunkFrac_zero]
      have hmem9 : ∀ e ∈ ((⟨"chunking", mkRat 3 10⟩ : ProgressEvent)
          :: chunkProgress n), e.progress ≤ mkRat 9 10 := by
        intro e he
        rcases List.mem_cons.mp he with rfl | hm
        · decide
        · exact chunkProgress_mem_le n e hm
      have hchain2 : List.Chain' (fun a b : ProgressEvent => a.progress ≤ b.progress)
          (((⟨"chunking", mkRat 3 10⟩ : ProgressEvent) :: chunkProgress n)
            ++ (if resultSuccess
                then [(⟨"finalizing", mkRat 9 10⟩ : ProgressEvent), ⟨"complete", 1⟩]
                else [])) := by
        refine List.Chain'.append hmid ?_ ?_
        · cases resultSuccess with
          | true =>
              simp only [if_true]
              simp only [List.chain'_cons, List.chain'_singleton, and_true]
              decide
          | false => simp
        · intro x hx y hy
          have hx9 := hmem9 x (List.mem_of_getLast?_eq_some hx)
          cases resultSuccess with
          | true =>
              simp only [if_true] at hy
              simp at hy
              subst hy
              exact hx9
          | false => simp at hy
      have hpre : extractPaperProgress true true false n resultSuccess
          = ([(⟨"parsing", mkRat 1 10⟩ : ProgressEvent), ⟨"analyzing", mkRat 2 10⟩]
            ++ (((⟨"chunking", mkRat 3 10⟩ : ProgressEvent) :: chunkProgress n)
              ++ (if resultSuccess
                  then [(⟨"finalizing", mkRat 9 10⟩ : ProgressEvent), ⟨"complete", 1⟩]
                  else []))) := by
        simp [extractPaperProgress]
      rw [hpre]
      refine List.Chain'.append ?_ hchain2 ?_
      · simp only [List.chain'_cons, List.chain'_singleton, and_true]
        decide
      · intro x hx y hy
        simp at hx
        subst hx
        rw [List.cons_append] at hy
        simp at hy
        subst hy
        decide

/-! ## Chunker non-termination (C2) -/

theorem chunkLoop_stuck_neg3 :
    ∀ (fuel idx : Nat) (acc : List ChunkInfo),
      chunkLoop countTokens4 defaultSeparators (List.replicate 8 'a') 1 1
        fuel (-3) idx acc = none := by
  intro fuel
  induction fuel with
  | zero =>
      intro idx acc
      simp only [chunkLoop]
      rw [if_pos (by decide)]
  | succ f ih =>
      intro idx acc
      have hstep : (chunkStep countTokens4 defaultSeparators
          (List.replicate 8 'a') 1 1 (-3) idx).2 = -3 := rfl
      simp only [chunkLoop]
      rw [if_pos (by decide), hstep]
      exact ih (idx + 1) _

theorem chunkLoop_stuck_neg4 :
    ∀ (fuel idx : Nat) (acc : List ChunkInfo),
      chunkLoop countTokens4 defaultSeparators (List.replicate 8 'a') 1 1
        fuel (-4) idx acc = none := by
  intro fuel
  cases fuel with
  | zero =>
      intro idx acc
      simp only [chunkLoop]
      rw [if_pos (by decide)]
  | succ f =>
      intro idx acc
      have hstep : (chunkStep countTokens4 defaultSeparators
          (List.replicate 8 'a') 1 1 (-4) idx).2 = -3 := rfl
      simp only [chunkLoop]
      rw [if_pos (by decide), hstep]
      exact chunkLoop_stuck_neg3 f (idx + 1) _

theorem chunkLoop_stuck_zero :
    ∀ (fuel idx : Nat) (acc : List ChunkInfo),
      chunkLoop countTokens4 defaultSeparators (List.replicate 8 'a') 1 1
        fuel 0 idx acc = none := by
  intro fuel
  cases fuel with
  | zero =>
      intro idx acc
      simp only [chunkLoop]
      rw [if_pos (by decide)]
  | succ f =>
      intro idx acc
      have hstep : (chunkStep countTokens4 defaultSeparators
          (List.replicate 8 'a') 1 1 0 idx).2 = -4 := rfl
      simp only [chunkLoop]
      rw [if_pos (by decide), hstep]
      exact chunkLoop_stuck_neg4 f (idx + 1) _

/-- C2 (code evaluation at the failing input): on the eight-character
separator-free text `"aaaaaaaa"` with `max_tokens = 1`, `overlap = 1` and the
client's `len // 4` token counter, the text exceeds the budget (2 tokens), so
the forward loop runs — and never consumes the text: `current_pos` moves
0 → -4 → -3 → -3 → ... (each pass snaps to the `-1 + len(sep)` rfind
sentinel, slices an empty chunk and steps backward by the 4-character overlap
estimate), so `chunk()` does not terminate for any iteration budget and the
produced chunks never cover the input. -/
theorem chunk_nonterminating (fuel : Nat) :
    chunk countTokens4 defaultSeparators (List.replicate 8 'a') 1 1 fuel
      = none := by
  have h0 := chunkLoop_stuck_zero fuel 0 []
  simp only [chunk]
  rw [if_neg (by decide), h0]

/-- C1 (code evaluation): with a cache-enabled client and temperature 0.0, the
first `complete` call finds no cached row, POSTs once, then crashes in
`ResponseCache.set` with `AttributeError` on `input_tokens`, leaving the
cache empty; the second identical call therefore misses the cache again,
POSTs a second time, and crashes the same way — the response is never served
from cache and no response is ever flagged `cached=true`. -/
theorem cache_roundtrip_crashes :
    (complete defaultLLMConfig (some []) 0 [⟨.user, "hi"⟩] (some 0)
        (fun _ => .success ⟨"hello", some "gpt-oss-20b", some (3, 5), some "stop"⟩)).1
      = .error (.attributeError "TokenUsage" "input_tokens")
    ∧ (complete defaultLLMConfig (some []) 0 [⟨.user, "hi"⟩] (some 0)
        (fun _ => .success ⟨"hello", some "gpt-oss-20b", some (3, 5), some "stop"⟩)).2.posts
      = 1
    ∧ (complete defaultLLMConfig (some []) 0 [⟨.user, "hi"⟩] (some 0)
        (fun _ => .success ⟨"hello", some "gpt-oss-20b", some (3, 5), some "stop"⟩)).2.cacheReads
      = 1
    ∧ (complete defaultLLMConfig (some []) 0 [⟨.user, "hi"⟩] (some 0)
        (fun _ => .success ⟨"hello", some "gpt-oss-20b", some (3, 5), some "stop"⟩)).2.store
      = [] := by
  refine ⟨?_, ?_, ?_, ?_⟩ <;> rfl

/-! ## Dict-merge and missing-variable lemmas -/

theorem keys_pyDictSet (d : List (String × String)) (key v : String) :
    (pyDictSet d key v).map Prod.fst
      = if d.any fun kv => kv.1 == key then d.map Prod.fst
        else d.map Prod.fst ++ [key] := by
  unfold pyDictSet
  split
  · rw [List.map_map]
    refine List.map_congr_left ?_
    intro kv _
    by_cases h : kv.1 = key
    · simp [Function.comp, h]
    · simp [Function.comp, h]
  · simp

theorem mem_keys_pyDictSet (d : List (String × String)) (key v x : String) :
    x ∈ (pyDictSet d key v).map Prod.fst ↔ x ∈ d.map Prod.fst ∨ x = key := by
  rw [keys_pyDictSet]
  split
  · next h =>
      have hk : key ∈ d.map Prod.fst := by
        rcases List.any_eq_true.mp h with ⟨kv, hkv, hbeq⟩
        have : kv.1 = key := by simpa using hbeq
        exact this ▸ List.mem_map_of_mem Prod.fst hkv
      constructor
      · exact Or.inl
      · rintro (h' | rfl)
        · exact h'
        · exact hk
  · simp

theorem mem_keys_pyDictMerge (upd : List (String × String)) :
    ∀ (base : List (String × String)) (x : String),
      x ∈ (pyDictMerge base upd).map Prod.fst
        ↔ x ∈ base.map Prod.fst ∨ x ∈ upd.map Prod.fst := by
  induction upd with
  | nil => intro base x; simp [pyDictMerge]
  | cons kv rest ih =>
      intro base x
      have hstep : pyDictMerge base (kv :: rest)
          = pyDictMerge (pyDictSet base kv.1 kv.2) rest := rfl
      rw [hstep, ih (pyDictSet base kv.1 kv.2) x, mem_keys_pyDictSet]
      simp [or_assoc]

theorem mem_validate_variables (t : PromptTemplate) (provided : List String)
    (v : String) :
    v ∈ validate_variables t provided
      ↔ v ∈ get_required_variables t ∧ v ∉ provided := by
  unfold validate_variables
  rw [List.mem_filter]
  simp

/-- C5: for every extractor, content and context map, if the task template has
a required placeholder variable that is neither `content` nor a key of the
context map, `extract()` performs no completion call (trace `none`) and
returns an `ExtractionResult` with success false, empty data, confidence 0.0,
empty raw response, and an error listing exactly the missing variable
names. -/
theorem extract_missing_variable_short_circuit (ex : ExtractorSpec)
    (cfg : LLMConfig) (cache : Option CacheStore) (now : ℚ) (content : String)
    (context : List (String × String)) (outcomes : Nat → HttpOutcome)
    (h : ∃ v, v ∈ get_required_variables ex.prompt_template ∧
          v ≠ "content" ∧ v ∉ context.map Prod.fst) :
    ∃ missing : List String, missing ≠ []
      ∧ extract ex cfg cache now content context outcomes
          = ({ extraction_type := ex.extraction_type, success := false,
               data := [], confidence := 0, raw_response := "", usage := none,
               errors := [.missingVariables missing] }, none)
      ∧ ∀ v, v ∈ missing ↔
          (v ∈ get_required_variables ex.prompt_template ∧
           v ≠ "content" ∧ v ∉ context.map Prod.fst) := by
  set tvars := pyDictMerge [("content", content)] context with htv
  have hmem : ∀ v, v ∈ validate_variables ex.prompt_template (tvars.map Prod.fst)
      ↔ (v ∈ get_required_variables ex.prompt_template ∧
         v ≠ "content" ∧ v ∉ context.map Prod.fst) := by
    intro v
    rw [mem_validate_variables, htv]
    rw [mem_keys_pyDictMerge context [("content", content)] v]
    constructor
    · rintro ⟨hreq, hnot⟩
      refine ⟨hreq, ?_, ?_⟩
      · intro hv; exact hnot (Or.inl (by simp [hv]))
      · intro hv; exact hnot (Or.inr hv)
    · rintro ⟨hreq, hnc, hnk⟩
      refine ⟨hreq, ?_⟩
      rintro (hl | hr)
      · exact hnc (by simpa using hl)
      · exact hnk hr
  obtain ⟨v, hv⟩ := h
  have hvmem : v ∈ validate_variables ex.prompt_template (tvars.map Prod.fst) :=
    (hmem v).mpr hv
  have hne : validate_variables ex.prompt_template (tvars.map Prod.fst) ≠ [] :=
    List.ne_nil_of_mem hvmem
  refine ⟨validate_variables ex.prompt_template (tvars.map Prod.fst), hne, ?_, hmem⟩
  unfold extract
  rw [← htv]
  rw [if_neg (by simpa using hne)]

/-- Witness for C5: a task template requiring `{title}` and `{content}` with
an empty context map short-circuits, reporting `title` as missing. -/
theorem extract_missing_variable_short_circuit_witness :
    (∃ v, v ∈ get_required_variables ⟨"t", "{title}: {content}", ""⟩ ∧
        v ≠ "content" ∧ v ∉ ([] : List (String × String)).map Prod.fst)
    ∧ ∃ missing : List String, missing ≠ []
      ∧ extract ⟨"demo", ⟨"s", "sys", ""⟩, ⟨"t", "{title}: {content}", ""⟩,
            (fun s => [("k", s)]), []⟩ defaultLLMConfig none 0 "body" []
            (fun _ => .success ⟨"ok", none, none, none⟩)
          = ({ extraction_type := "demo", success := false,
               data := [], confidence := 0, raw_response := "", usage := none,
               errors := [.missingVariables missing] }, none)
      ∧ ∀ v, v ∈ missing ↔
          (v ∈ get_required_variables ⟨"t", "{title}: {content}", ""⟩ ∧
           v ≠ "content" ∧ v ∉ ([] : List (String × String)).map Prod.fst) := by
  have hex : ∃ v, v ∈ get_required_variables ⟨"t", "{title}: {content}", ""⟩ ∧
      v ≠ "content" ∧ v ∉ ([] : List (String × String)).map Prod.fst := by
    refine ⟨"title", ?_, by decide, by simp⟩
    decide
  exact ⟨hex, extract_missing_variable_short_circuit
    ⟨"demo", ⟨"s", "sys", ""⟩, ⟨"t", "{title}: {content}", ""⟩,
      (fun s => [("k", s)]), []⟩ defaultLLMConfig none 0 "body" []
    (fun _ => .success ⟨"ok", none, none, none⟩) hex⟩

/-! ## Cache-gating lemmas -/

theorem retryLoop_false_store (cfg : LLMConfig) (key : String) (now : ℚ)
    (outcomes : Nat → HttpOutcome) (store : CacheStore) :
    ∀ (idxs : List Nat) (last : Option AttemptError),
      (retryLoop cfg false key now outcomes store idxs last).2.2.2 = store := by
  intro idxs
  induction idxs with
  | nil => intro last; rfl
  | cons a rest ih =>
      intro last
      cases ho : outcomes a with
      | success r => simp [retryLoop, ho]
      | statusError code =>
          by_cases h5 : 500 ≤ code
          · simp [retryLoop, ho, h5, ih]
          · simp [retryLoop, ho, h5]
      | requestFail msg => simp [retryLoop, ho, ih]

/-- C7: the client consults the response cache only at effective temperature
exactly 0.0 — any `complete` call at non-zero temperature performs zero cache
reads and leaves the cache store untouched — and every completion issued by
`extract()` is made at temperature 0.1, so an extraction's completion never
reads from nor writes to the cache even when a cache is configured. -/
theorem extraction_never_uses_cache (cfg : LLMConfig) (cache : Option CacheStore)
    (now : ℚ) (messages : List LLMMessage) (temperature? : Option ℚ)
    (outcomes : Nat → HttpOutcome) (ex : ExtractorSpec) (content : String)
    (context : List (String × String)) :
    (temperature?.getD cfg.temperature ≠ 0 →
      (complete cfg cache now messages temperature? outcomes).2.cacheReads = 0
      ∧ (complete cfg cache now messages temperature? outcomes).2.store
          = cache.getD [])
    ∧ (∀ tr, (extract ex cfg cache now content context outcomes).2 = some tr →
        tr.cacheReads = 0 ∧ tr.store = cache.getD []) := by
  have hgate : ∀ (msgs : List LLMMessage) (t? : Option ℚ),
      t?.getD cfg.temperature ≠ 0 →
      (complete cfg cache now msgs t? outcomes).2.cacheReads = 0
      ∧ (complete cfg cache now msgs t? outcomes).2.store = cache.getD [] := by
    intro msgs t? ht
    rw [complete_no_cache_path cfg cache now msgs t? outcomes (Or.inr ht)]
    exact ⟨rfl, retryLoop_false_store cfg _ now outcomes (cache.getD [])
      (List.range cfg.max_retries) none⟩
  refine ⟨hgate messages temperature?, ?_⟩
  intro tr htr
  simp only [extract] at htr
  split at htr
  · have hten : ((some (mkRat 1 10)).getD cfg.temperature) ≠ 0 := by
      rw [Option.getD_some]
      decide
    split at htr
    · cases Option.some.inj htr
      exact hgate _ _ hten
    · cases Option.some.inj htr
      exact hgate _ _ hten
  · exact absurd htr (by simp)

/-- Witness for C7: a valid extraction over a cache-enabled client with an
empty cache issues its completion without any cache read and leaves the
cache store unchanged. -/
theorem extraction_never_uses_cache_witness :
    (extract ⟨"demo", ⟨"s", "sys", ""⟩, ⟨"t", "{content}", ""⟩,
        (fun s => [("k", s)]), []⟩ defaultLLMConfig (some []) 0 "body" []
        (fun _ => .success ⟨"ok", none, none, none⟩)).2
      = some { posts := 1, sleeps := [], cacheReads := 0, store := [] }
    ∧ ({ posts := 1, sleeps := [], cacheReads := 0, store := [] }
        : CompleteTrace).cacheReads = 0
    ∧ ({ posts := 1, sleeps := [], cacheReads := 0, store := [] }
        : CompleteTrace).store = (some ([] : CacheStore)).getD [] := by
  have heq : (extract ⟨"demo", ⟨"s", "sys", ""⟩, ⟨"t", "{content}", ""⟩,
      (fun s => [("k", s)]), []⟩ defaultLLMConfig (some []) 0 "body" []
      (fun _ => .success ⟨"ok", none, none, none⟩)).2
      = some { posts := 1, sleeps := [], cacheReads := 0, store := [] } := by
    decide
  refine ⟨heq, ?_⟩
  exact (extraction_never_uses_cache defaultLLMConfig (some []) 0 [] none
    (fun _ => .success ⟨"ok", none, none, none⟩)
    ⟨"demo", ⟨"s", "sys", ""⟩, ⟨"t", "{content}", ""⟩, (fun s => [("k", s)]), []⟩
    "body" []).2 _ heq

/-! ## Legacy scraper claims (C10) -/

/-- C10 counterexample: on a `Paper.md` whose content is `"link:\nhttp://a\n"`,
no single line matches the whole-line pattern `link: <URL>` — so the claim
says the record's URL is the sentinel `NO LINK FOUND` — yet the code's
multiline regex matches across the line break (its `\s*` consumes the
newline) and `get_paper_urls` records `http://a`. -/
theorem scraper_url_not_line_anchored :
    (get_paper_urls [⟨"sub", ["Paper.md"], ("link:\nhttp://a\n").toList⟩]
        []).map PaperRecord.url = [("http://a").toList]
    ∧ firstLineLinkSpec (("link:\nhttp://a\n").toList) = none
    ∧ ¬ ((get_paper_urls [⟨"sub", ["Paper.md"], ("link:\nhttp://a\n").toList⟩]
          []).map PaperRecord.url
        = [(firstLineLinkSpec (("link:\nhttp://a\n").toList)).getD sentinel]) := by
  refine ⟨by decide, by decide, by decide⟩

theorem get_paper_urls_foldl (downloadedFiles : List String)
    (walk : List WalkEntry) :
    ∀ acc : List PaperRecord,
      walk.foldl
        (fun acc e =>
          if e.filenames.contains "Paper.md" then
            acc ++ [{ folder := e.basename
                      url := (searchLink e.content).getD sentinel
                      downloaded :=
                        if downloadedFiles.contains (e.basename ++ ".pdf")
                        then "Yes" else "No" }]
          else acc)
        acc
      = acc ++ walk.filterMap fun e =>
          if e.filenames.contains "Paper.md" then
            some { folder := e.basename
                   url := (searchLink e.content).getD sentinel
                   downloaded :=
                     if downloadedFiles.contains (e.basename ++ ".pdf")
                     then "Yes" else "No" }
          else none := by
  induction walk with
  | nil => intro acc; simp
  | cons e rest ih =>
      intro acc
      by_cases h : e.filenames.contains "Paper.md"
      · simp only [List.foldl_cons, List.filterMap_cons, h, if_true, ih]
        simp
      · simp only [List.foldl_cons, List.filterMap_cons, h, if_false, ih]
        simp [h]

/-- C10 (amended): for every scanned directory tree, each subfolder containing
a `Paper.md` contributes exactly one record, in walk order, whose URL is the
capture of the first (leftmost) anchored match of the case-insensitive
multiline pattern `link: <http(s) URL>` — whose surrounding whitespace may
span line breaks, so the label and the URL may lie on different lines — or
the literal sentinel `NO LINK FOUND` when no match exists; subfolders with no
`Paper.md` contribute no records. -/
theorem get_paper_urls_records (walk : List WalkEntry)
    (downloadedFiles : List String) :
    get_paper_urls walk downloadedFiles
      = walk.filterMap fun e =>
          if e.filenames.contains "Paper.md" then
            some { folder := e.basename
                   url := (searchLink e.content).getD sentinel
                   downloaded :=
                     if downloadedFiles.contains (e.basename ++ ".pdf")
                     then "Yes" else "No" }
          else none := by
  have h := get_paper_urls_foldl downloadedFiles walk []
  simpa [get_paper_urls] using h

end Shannon
